import Mathlib

/-!
# Verification of `src/memory.js` (symbiote-abc)

A shallow embedding of the memory module: the resilient invocation engine
`fetchWithCognitiveRetry` and the conversational pipeline `processMemoryChat`
(Director sub-pipeline and Standard sub-pipeline), with theorems settling the
frozen claims about retry/backoff behaviour, fallback values, reply-schema
invariants, the Timekeeper gate, Director SEARCH filtering and fallback, mood
sanitization, and error fall-through.

Modelling conventions:
* JavaScript values flowing through `JSON.parse`/`JSON.stringify` are modelled
  by the inductive `Json`; a JS `undefined` field is modelled by `Option`
  (`none` = the field is absent / `undefined`), matching `JSON.stringify`
  dropping `undefined`-valued fields.
* Network calls are oracles: each call site consumes the outcome of its call
  from an explicit oracle argument. A `fetch` (or `res.json()`) that throws is
  `StoreCall.err`; code locations where such an exception is not caught make
  the modelled function return `Except.error ()` (the promise rejects).
* The inference engine never throws (its loop always returns), so engine call
  sites are modelled by the typed parsed value the call produced, which is
  either a validator-passing object or the engine's safe-mode fallback.
* Time is in milliseconds exactly as in the source (`delay = 1000` to start);
  the spec's "time unit" is 1000 ms.
-/

/-- A single apostrophe character, used inside string literals. -/
def apos : String := String.mk [Char.ofNat 39]

/-- JSON values (the result of `JSON.parse`). -/
inductive Json where
  | null
  | bool (b : Bool)
  | num (n : Int)
  | str (s : String)
  | arr (xs : List Json)
  | obj (fields : List (String × Json))

/-- Field lookup on a JSON object (`undefined`, i.e. `none`, otherwise). -/
def Json.get (j : Json) (k : String) : Option Json :=
  match j with
  | .obj fs => fs.lookup k
  | _ => none

/-- Whether a JSON value is an object. -/
def Json.isObj : Json → Bool
  | .obj _ => true
  | _ => false

/-- JavaScript truthiness of a JSON value. -/
def jsTruthy : Json → Bool
  | .null => false
  | .bool b => b
  | .num n => n != 0
  | .str s => s != ""
  | .arr _ => true
  | .obj _ => true

def quoteStr (s : String) : String := "\"" ++ s ++ "\""

mutual

/-- `JSON.stringify` (no whitespace), for the modelled `Json` values. -/
def Json.serialize : Json → String
  | .null => "null"
  | .bool b => if b then "true" else "false"
  | .num n => toString n
  | .str s => quoteStr s
  | .arr xs => "[" ++ serializeItems xs ++ "]"
  | .obj fs => "\x7b" ++ serializeFields fs ++ "\x7d"

def serializeItems : List Json → String
  | [] => ""
  | [x] => Json.serialize x
  | x :: y :: rest => Json.serialize x ++ "," ++ serializeItems (y :: rest)

def serializeFields : List (String × Json) → String
  | [] => ""
  | [(k, v)] => quoteStr k ++ ":" ++ Json.serialize v
  | (k, v) :: y :: rest => quoteStr k ++ ":" ++ Json.serialize v ++ "," ++ serializeFields (y :: rest)

end

/-- JavaScript `a || b` for an optional string `a` (`undefined` and `""` are falsy). -/
def jsOr (o : Option String) (d : String) : String :=
  match o with
  | some s => if s = "" then d else s
  | none => d

/-- `s.toLowerCase()` (character-wise). -/
def jsToLower (s : String) : String :=
  String.mk (s.data.map Char.toLower)

/-- `s.toUpperCase()` (character-wise). -/
def jsToUpper (s : String) : String :=
  String.mk (s.data.map Char.toUpper)

/-- `s.trim()`: strip leading and trailing whitespace. -/
def jsTrim (s : String) : String :=
  String.mk (((s.data.dropWhile Char.isWhitespace).reverse.dropWhile
    Char.isWhitespace).reverse)

/-- `String.prototype.split` with a single-character separator: empty
pieces are kept, exactly as in JavaScript. -/
def splitOnChar (c : Char) : List Char → List (List Char)
  | [] => [[]]
  | d :: rest =>
    if d = c then [] :: splitOnChar c rest
    else
      match splitOnChar c rest with
      | h :: t => (d :: h) :: t
      | [] => [[d]]

/-- `s.split(c)` for a one-character separator. -/
def jsSplit (s : String) (c : Char) : List String :=
  (splitOnChar c s.data).map String.mk

/-- Helper for `dedupKeep`: keep elements not yet seen. -/
def dedupKeepAux (seen : List String) : List String → List String
  | [] => []
  | x :: xs =>
    if seen.contains x then dedupKeepAux seen xs
    else x :: dedupKeepAux (x :: seen) xs

/-- `[...new Set(l)]`: deduplication preserving first-occurrence order. -/
def dedupKeep (l : List String) : List String :=
  dedupKeepAux [] l

/-- `hay.includes(needle)`: substring test. -/
def strContains (hay needle : String) : Bool :=
  decide (needle.data <:+: hay.data)

/-- Fueled scanner for the regexes `[A-Z][k]+` (with `k` a character
class): at an uppercase character followed by at least one `k`-character,
emit the maximal match and continue after it; otherwise move one character
on. The fuel (initially the list length) only bounds the recursion. -/
def capRunsGo (k : Char → Bool) : Nat → List Char → List String
  | 0, _ => []
  | _ + 1, [] => []
  | fuel + 1, c :: rest =>
    if c.isUpper then
      if (rest.takeWhile k).isEmpty then capRunsGo k fuel rest
      else String.mk (c :: rest.takeWhile k) ::
        capRunsGo k fuel (rest.drop (rest.takeWhile k).length)
    else capRunsGo k fuel rest

/-- Matches of the regex `[A-Z][a-z]+`
(`fact_to_store.match(/[A-Z][a-z]+/g) || []`). -/
def capLowerRuns (l : List Char) : List String :=
  capRunsGo (fun d => d.isLower) l.length l

/-- Matches of the regex `[A-Z][a-zA-Z]+`
(used by the anaphora bridge and the deep anchor scan). -/
def capAlphaRuns (l : List Char) : List String :=
  capRunsGo (fun d => d.isAlpha) l.length l

/-! ## The resilient invocation engine: `fetchWithCognitiveRetry`

One attempt = one `fetch` to the inference service under the 15s timeout.
The outcome of each attempt is drawn from an oracle `Nat → Attempt`. -/

/-- The body situation of an HTTP response whose status was accepted. -/
inductive Body where
  /-- `response.json()` threw, or `data.choices[0].message` is missing:
  the attempt fails before the inner parse. -/
  | badOuter
  /-- `JSON.parse(data.choices[0].message.content)` threw
  ("Invalid JSON structure received"). -/
  | badInner
  /-- The message content parses to `content`; `outer` is the whole
  response body (`data`). -/
  | okBody (outer : Json) (content : Json)

/-- The outcome of one attempt of the engine. -/
inductive Attempt where
  /-- The `fetch` itself threw: network error, or the 15s abort. -/
  | fetchError
  /-- An HTTP response with the given status arrived. -/
  | response (status : Nat) (body : Body)

/-- The value `fetchWithCognitiveRetry` resolves with:
`{ raw?, parsed, cleaned }`. `raw = none` models the field being absent
(the safe-mode fallback omits `raw`). -/
structure FetchResult where
  raw : Option Json
  parsed : Json
  cleaned : String

/-- The engine's safe-mode parsed value `{ mood: "NEUTRAL", response: "..." }`. -/
def fallbackParsed : Json :=
  .obj [("mood", .str "NEUTRAL"), ("response", .str "...")]

/-- The engine's safe-mode return value
`{ parsed: {mood:"NEUTRAL",response:"..."}, cleaned: ... }` (no `raw`). -/
def fallbackFetchResult : FetchResult :=
  { raw := none
    parsed := fallbackParsed
    cleaned := "\x7b\"mood\":\"NEUTRAL\",\"response\":\"...\"\x7d" }

/-- One iteration of the engine's `try` block: `some r` means the attempt
returned `r`; `none` means some error was thrown and lands in the `catch`.

Faithful to the source: a non-2xx status *always* throws — the
401/403 branch throws `CRITICAL AUTH ERROR` instead of `API Error`, but both
throws are inside the same `try`, so both land in the same `catch`. -/
def runAttempt (v : Json → Bool) (a : Attempt) : Option FetchResult :=
  match a with
  | .fetchError => none
  | .response status body =>
    if 200 ≤ status ∧ status < 300 then
      match body with
      | .badOuter => none
      | .badInner => none
      | .okBody outer content =>
        if v content then
          some { raw := some outer, parsed := content, cleaned := content.serialize }
        else none
    else none

/-- The result of a whole run of the engine: the resolved value, the number
of attempts that were made, and the list of backoff delays actually slept
(in milliseconds, in order). -/
structure RunResult where
  result : FetchResult
  attempts : Nat
  sleeps : List Nat

/-- The engine's `while (attempts < MAX_RETRIES)` loop. `fuel` is
`MAX_RETRIES - attempts`; `idx` is the current attempt index; `delay` the
current backoff delay. With `fuel = 1` a failure is the final one
(`attempts >= MAX_RETRIES` after the increment), so the safe-mode fallback is
returned without sleeping; otherwise the loop sleeps `delay`, doubles it and
tries again. -/
def fetchGo (v : Json → Bool) (o : Nat → Attempt) : Nat → Nat → Nat → RunResult
  | 0, idx, _ => { result := fallbackFetchResult, attempts := idx, sleeps := [] }
  | 1, idx, _ =>
    match runAttempt v (o idx) with
    | some r => { result := r, attempts := idx + 1, sleeps := [] }
    | none => { result := fallbackFetchResult, attempts := idx + 1, sleeps := [] }
  | (n + 2), idx, delay =>
    match runAttempt v (o idx) with
    | some r => { result := r, attempts := idx + 1, sleeps := [] }
    | none =>
      let rest := fetchGo v o (n + 1) (idx + 1) (delay * 2)
      { result := rest.result, attempts := rest.attempts, sleeps := delay :: rest.sleeps }

/-- `fetchWithCognitiveRetry`: up to `MAX_RETRIES = 3` attempts, starting
with a 1000 ms backoff delay. -/
def fetchRun (v : Json → Bool) (o : Nat → Attempt) : RunResult :=
  fetchGo v o 3 0 1000

lemma runAttempt_some {v : Json → Bool} {a : Attempt} {r : FetchResult}
    (h : runAttempt v a = some r) :
    v r.parsed = true ∧ r.raw.isSome = true ∧ r.cleaned = r.parsed.serialize := by
  unfold runAttempt at h
  split at h
  · exact absurd h (by simp)
  · split at h
    · split at h
      · exact absurd h (by simp)
      · exact absurd h (by simp)
      · split at h
        · obtain rfl := Option.some.inj h
          exact ⟨by assumption, rfl, rfl⟩
        · exact absurd h (by simp)
    · exact absurd h (by simp)

/-- C1. The claim (and the source comment "If 401 (Auth) or 403 (Forbidden),
do NOT retry") say a 401/403 response makes exactly one attempt and
propagates as a terminal failure. The code instead throws the auth error
inside its own retry `try`/`catch`: with every attempt answering HTTP 401 the
engine makes all 3 attempts, sleeps the 1000 ms and 2000 ms backoffs in
between, and resolves with the safe-mode fallback — the auth failure is
retried like any transient failure and never propagates. -/
theorem c1_auth_status_retried :
    fetchRun (fun _ => true) (fun _ => Attempt.response 401 Body.badOuter) =
      { result := fallbackFetchResult, attempts := 3, sleeps := [1000, 2000] } := by
  rfl

/-- C2. In every run of `fetchWithCognitiveRetry` at most 3 attempts are
made, and the backoff delays actually slept are exactly the schedule
1000·2⁰, 1000·2¹, … ms (i.e. 1, 2, 4 … time units), one sleep between
consecutive retryable failures and none anywhere else (the number of sleeps
is the number of attempts minus one, except that no sleep follows the final
failed attempt). -/
theorem c2_retry_bound_and_backoff (v : Json → Bool) (o : Nat → Attempt) :
    (fetchRun v o).attempts ≤ 3 ∧
    (fetchRun v o).sleeps =
      (List.range ((fetchRun v o).sleeps).length).map (fun i => 1000 * 2 ^ i) ∧
    ((fetchRun v o).sleeps).length ≤ (fetchRun v o).attempts - 1 := by
  unfold fetchRun fetchGo
  rcases h0 : runAttempt v (o 0) with _ | r0
  · rcases h1 : runAttempt v (o 1) with _ | r1
    · rcases h2 : runAttempt v (o 2) with _ | r2
      · simp [fetchGo, h0, h1, h2, List.range_succ]
      · simp [fetchGo, h0, h1, h2, List.range_succ]
    · simp [fetchGo, h0, h1, List.range_succ]
  · simp [fetchGo, h0]

/-- C3. When all 3 attempts fail, the engine *returns* (it never raises) the
deterministic safe-mode value: no `raw`, parsed content with mood `NEUTRAL`
and the placeholder response `"..."`, and the matching cleaned JSON string —
a structurally valid result is always available to callers. -/
theorem c3_exhaustion_returns_fallback (v : Json → Bool) (o : Nat → Attempt)
    (hfail : ∀ i, i < 3 → runAttempt v (o i) = none) :
    (fetchRun v o).result = fallbackFetchResult ∧
    (fetchRun v o).result.parsed.get "mood" = some (.str "NEUTRAL") ∧
    (fetchRun v o).result.parsed.get "response" = some (.str "...") ∧
    (fetchRun v o).result.cleaned = "\x7b\"mood\":\"NEUTRAL\",\"response\":\"...\"\x7d" := by
  have h0 := hfail 0 (by omega)
  have h1 := hfail 1 (by omega)
  have h2 := hfail 2 (by omega)
  have hres : fetchRun v o =
      { result := fallbackFetchResult, attempts := 3, sleeps := [1000, 2000] } := by
    unfold fetchRun fetchGo
    simp [fetchGo, h0, h1, h2]
  rw [hres]
  exact ⟨rfl, rfl, rfl, rfl⟩

theorem c3_exhaustion_witness :
    (∀ i : Nat, i < 3 → runAttempt (fun _ => false) Attempt.fetchError = none) ∧
    ((fetchRun (fun _ => false) (fun _ => Attempt.fetchError)).result = fallbackFetchResult ∧
      (fetchRun (fun _ => false) (fun _ => Attempt.fetchError)).result.parsed.get "mood" =
        some (.str "NEUTRAL") ∧
      (fetchRun (fun _ => false) (fun _ => Attempt.fetchError)).result.parsed.get "response" =
        some (.str "...") ∧
      (fetchRun (fun _ => false) (fun _ => Attempt.fetchError)).result.cleaned =
        "\x7b\"mood\":\"NEUTRAL\",\"response\":\"...\"\x7d") :=
  ⟨fun _ _ => rfl,
    c3_exhaustion_returns_fallback (fun _ => false) (fun _ => Attempt.fetchError)
      (fun _ _ => rfl)⟩

/-- C9. Every value the engine resolves with has a `parsed` field that is an
object (given that the call's validator only accepts objects, as every call
site's validator does) and a `cleaned` field that is the JSON serialization
of `parsed` — on the success path and on the exhaustion path alike. The
`raw` field, however, is present exactly when some attempt succeeded: the
exhaustion fallback omits it, so a caller reading `raw` after exhaustion
gets `undefined`. -/
theorem c9_engine_result_shape (v : Json → Bool) (o : Nat → Attempt)
    (hv : ∀ j, v j = true → j.isObj = true) :
    (fetchRun v o).result.parsed.isObj = true ∧
    (fetchRun v o).result.cleaned = (fetchRun v o).result.parsed.serialize ∧
    ((fetchRun v o).result.raw.isSome = true ↔
      ¬ (∀ i, i < 3 → runAttempt v (o i) = none)) := by
  unfold fetchRun fetchGo
  rcases h0 : runAttempt v (o 0) with _ | r0
  · rcases h1 : runAttempt v (o 1) with _ | r1
    · rcases h2 : runAttempt v (o 2) with _ | r2
      · refine ⟨by simp [fetchGo, h0, h1, h2, fallbackFetchResult, fallbackParsed, Json.isObj],
          by simp [fetchGo, h0, h1, h2]; rfl, ?_⟩
        simp only [fetchGo, h0, h1, h2]
        constructor
        · intro h
          exact absurd h (by simp [fallbackFetchResult])
        · intro h
          exact absurd (fun i hi => by
            interval_cases i <;> assumption) h
      · obtain ⟨hval, hraw, hcl⟩ := runAttempt_some h2
        refine ⟨by simpa [fetchGo, h0, h1, h2] using hv _ hval,
          by simpa [fetchGo, h0, h1, h2] using hcl, ?_⟩
        simp only [fetchGo, h0, h1, h2]
        constructor
        · intro _ hall
          have := hall 2 (by omega)
          rw [h2] at this
          exact absurd this (by simp)
        · intro _
          exact hraw
    · obtain ⟨hval, hraw, hcl⟩ := runAttempt_some h1
      refine ⟨by simpa [fetchGo, h0, h1] using hv _ hval,
        by simpa [fetchGo, h0, h1] using hcl, ?_⟩
      simp only [fetchGo, h0, h1]
      constructor
      · intro _ hall
        have := hall 1 (by omega)
        rw [h1] at this
        exact absurd this (by simp)
      · intro _
        exact hraw
  · obtain ⟨hval, hraw, hcl⟩ := runAttempt_some h0
    refine ⟨by simpa [fetchGo, h0] using hv _ hval,
      by simpa [fetchGo, h0] using hcl, ?_⟩
    simp only [fetchGo, h0]
    constructor
    · intro _ hall
      have := hall 0 (by omega)
      rw [h0] at this
      exact absurd this (by simp)
    · intro _
      exact hraw

theorem c9_engine_result_shape_witness :
    (∀ j, Json.isObj j = true → Json.isObj j = true) ∧
    ((fetchRun Json.isObj
        (fun _ => Attempt.response 200 (Body.okBody (.obj []) (.obj [])))).result.parsed.isObj
          = true ∧
      (fetchRun Json.isObj
        (fun _ => Attempt.response 200 (Body.okBody (.obj []) (.obj [])))).result.cleaned =
        (fetchRun Json.isObj
          (fun _ => Attempt.response 200 (Body.okBody (.obj []) (.obj [])))).result.parsed.serialize ∧
      ((fetchRun Json.isObj
          (fun _ => Attempt.response 200 (Body.okBody (.obj []) (.obj [])))).result.raw.isSome = true ↔
        ¬ (∀ i : Nat, i < 3 →
          runAttempt Json.isObj
            (Attempt.response 200 (Body.okBody (.obj []) (.obj []))) = none))) :=
  ⟨fun _ h => h,
    c9_engine_result_shape Json.isObj
      (fun _ => Attempt.response 200 (Body.okBody (.obj []) (.obj []))) (fun _ h => h)⟩

/-! ## Director-mode data model

Inference-engine call sites are modelled by the typed parsed values they
produce. A value returned by the engine is either a validator-passing object
(whose validated field is then present) or the safe-mode fallback
`{mood:"NEUTRAL", response:"..."}`; where a field can be `undefined` on one
of these two shapes it is an `Option`. Storage-service calls are
`StoreCall α` where `err` is a thrown `fetch`/`res.json()` error. -/

/-- Outcome of a `fetch` to the storage service. -/
inductive StoreCall (α : Type) where
  | err
  | ok (r : α)

/-- One memory row of `retrieve_director_memory` (`{Entity, Fact}`). -/
structure DirMemory where
  Entity : Option String
  Fact : String
deriving DecidableEq

/-- A `{found, relevant_memories}` response of `retrieve_director_memory`. -/
structure RetrieveResp where
  found : Bool
  relevant_memories : List DirMemory
deriving DecidableEq

/-- The parsed DirectorAI intent classification. `intent = ""` models an
`undefined`/empty intent (in particular the engine's safe-mode fallback,
which carries no `intent` and behaves identically to `""` everywhere the
field is used). -/
structure DirAI where
  intent : String
  fact_to_store : Option String
  entity_name : Option String
  positive_constraints : Option (List String)
  negative_constraints : Option (List String)
  response : Option String
deriving DecidableEq

/-- The DirectorAI parsed value after engine exhaustion: the safe-mode
fallback `{mood:"NEUTRAL", response:"..."}` (no intent, no constraints). -/
def fallbackDirAI : DirAI :=
  { intent := "", fact_to_store := none, entity_name := none,
    positive_constraints := none, negative_constraints := none,
    response := some "..." }

/-- The parsed DirectorDedup result; on the safe-mode fallback both
booleans are `undefined`, i.e. falsy, and there is no warning. -/
structure DedupOut where
  is_duplicate : Bool
  is_contradiction : Bool
  warning_message : Option String
deriving DecidableEq

/-- The parsed DirectorAmbiguity result; `status = ""` models an
`undefined` status (safe-mode fallback). -/
structure AmbOut where
  status : String
  clarification_question : Option String
  resolved_names : Option (List String)
  resolved_excludes : Option (List String)
deriving DecidableEq

/-- One file of a `director_search` response. -/
structure DriveFile where
  name : String
  description : Option String
deriving DecidableEq

/-- A `director_search` response `{found, files, debug_query}`; `files` is
`none` when the response carries no `files` array (reading `.length` on it
then throws). -/
structure SearchResp where
  found : Bool
  files : Option (List DriveFile)
  debug_query : Option String
deriving DecidableEq

/-- The object serialized into `choices[0].message.content` of a reply.
`none` = the field is `undefined` and is dropped by `JSON.stringify`. -/
structure GraphLeaf where
  text : Option String
  mood : Option String
deriving DecidableEq

structure GraphBranch where
  label : Option String
  mood : Option String
  leaves : Option (List GraphLeaf)
deriving DecidableEq

structure GraphRoot where
  label : Option String
  mood : Option String
  branches : Option (List GraphBranch)
deriving DecidableEq

structure Content where
  response : Option String
  mood : Option String
  roots : Option (List GraphRoot)
deriving DecidableEq

/-- The value `processMemoryChat` resolves with: optional top-level action
fields plus `choices[0].message.content` (modelled pre-serialization as
`Content`). -/
structure Reply where
  directorAction : Option String := none
  deckKeywords : Option (List String) := none
  files : Option (List DriveFile) := none
  debug_query : Option String := none
  content : Content
deriving DecidableEq

/-- The fixed Director CHAT reply used when there is no subject to search
for (and after a failed context lookup). -/
def needMoreSpecificsReply : Reply :=
  { content := { response := some "I need more specific names or traits to search the archive.",
                 mood := some "CRYPTIC", roots := none } }

/-! ## Director CHAT branch (lines 236-420) -/

/-- The drill-down targets (lines 265-278): entities discovered in the
primary results that are not already named constraints, stably sorted by
whether their known fact matches a requested trait (`sort((a,b) =>
scoreB - scoreA)` over 0/1 scores = the stable partition), capped at 15. -/
def chatDrillTargets (pcs : List String) (allMem0 : List DirMemory) : List String :=
  let foundEntities := dedupKeep (allMem0.filterMap
    (fun m => m.Entity.bind (fun e => if e = "" then none else some e)))
  let dd0 := foundEntities.filter (fun e => ¬ pcs.contains e)
  let fScore := fun (e : String) =>
    let mf := (((allMem0.find? (fun m => m.Entity == some e)).map (fun m => m.Fact)).getD "")
    pcs.any (fun k => strContains (jsToLower mf) (jsToLower k))
  ((dd0.filter (fun e => fScore e)) ++ (dd0.filter (fun e => ¬ fScore e))).take 15

/-- Merge of drill-down results into the primary memory list, deduplicated
by literal fact text against the *pre-drill* set (the JS `existingIds` set
is built once, so duplicates within the drill results are both kept). -/
def chatMergedMemories (allMem0 : List DirMemory) (dres : RetrieveResp) : List DirMemory :=
  if dres.found ∧ dres.relevant_memories ≠ [] then
    allMem0 ++ dres.relevant_memories.filter
      (fun m => ¬ (allMem0.map (fun m0 => m0.Fact)).contains m.Fact)
  else allMem0

/-- The CHAT success reply (lines 389-395): the DirectorContextChat answer
with mood CRYPTIC, plus the SHOW_DECKS payload when the filtered match set
is non-empty. -/
def chatSuccessReply (fm : Option (List String)) (sr : String) : Reply :=
  if fm.getD [] ≠ [] then
    { directorAction := some "SHOW_DECKS", deckKeywords := some (fm.getD []),
      content := { response := some sr, mood := some "CRYPTIC", roots := none } }
  else
    { content := { response := some sr, mood := some "CRYPTIC", roots := none } }

/-- The CHAT honest not-found reply (lines 397-406). -/
def chatNotFoundReply (pcs : List String) : Reply :=
  { content := { response := some ("I searched the archives for " ++
                     String.intercalate ", " pcs ++ " but found no records."),
                 mood := some "SAD", roots := none } }

/-- The body of the CHAT branch's `try` block once the primary context
retrieval has resolved to `res`. Returns `none` when an uncaught inner
error (a failed drill-down fetch) is thrown, which the surrounding `catch`
swallows; otherwise the reply together with the merged memory list that
was fed into the filter/answer prompts. `fm` is the DirectorFilter parsed
`matches` field (`none` when absent, e.g. on the engine fallback); `sr` is
the DirectorContextChat parsed `response`. -/
def directorChatBig (pcs : List String) (res : RetrieveResp)
    (drill : StoreCall RetrieveResp) (fm : Option (List String)) (sr : String) :
    Option (Reply × List DirMemory) :=
  if res.found ∧ res.relevant_memories ≠ [] then
    if (chatDrillTargets pcs res.relevant_memories).isEmpty then
      some (chatSuccessReply fm sr, res.relevant_memories)
    else
      match drill with
      | .err => none
      | .ok dres => some (chatSuccessReply fm sr, chatMergedMemories res.relevant_memories dres)
  else
    some (chatNotFoundReply pcs, res.relevant_memories)

/-- The Director CHAT branch. `ctxC` is the primary
`retrieve_director_memory` call. -/
def directorChat (hasUrl : Bool) (ai : DirAI) (ctxC : StoreCall RetrieveResp)
    (drill : StoreCall RetrieveResp) (fm : Option (List String)) (sr : String) :
    Reply :=
  match ai.positive_constraints with
  | some pcs =>
    if pcs ≠ [] ∧ hasUrl then
      match ctxC with
      | .err => needMoreSpecificsReply
      | .ok res =>
        match directorChatBig pcs res drill fm sr with
        | some (r, _) => r
        | none => needMoreSpecificsReply
    else needMoreSpecificsReply
  | none => needMoreSpecificsReply

/-! ## Director STORE branch (lines 422-511) -/

/-- The lookup keys for the duplicate/contradiction check: entity name,
positive constraints, else capitalized tokens of the fact; deduplicated,
keeping keys of length > 1. -/
def storeLookupKeys (ai : DirAI) : List String :=
  let keys0 := match ai.entity_name with
    | some e => if e = "" then [] else [e]
    | none => []
  let keys1 := match ai.positive_constraints with
    | some pcs => keys0 ++ pcs
    | none => keys0
  let keys2 :=
    if keys1.length = 0 then
      match ai.fact_to_store with
      | some f => if f = "" then keys1 else capLowerRuns f.data
      | none => keys1
    else keys1
  (dedupKeep keys2).filter (fun k => k ≠ "" ∧ k.length > 1)

/-- The `(isDuplicate, isContradiction, contradictionWarning)` flags after
the STORE branch's guarded duplicate/contradiction check (its `try`
swallows all errors, leaving the flags at their initial falsy values). -/
def storeFlags (ai : DirAI) (check : StoreCall RetrieveResp) (dedup : DedupOut) :
    Bool × Bool × Option String :=
  if (storeLookupKeys ai).length > 0 then
    match check with
    | .err => (false, false, none)
    | .ok res =>
      if res.found ∧ res.relevant_memories ≠ [] then
        (dedup.is_duplicate, dedup.is_contradiction, dedup.warning_message)
      else (false, false, none)
  else (false, false, none)

/-- The Director STORE branch. Returns the reply and whether the
`store_director_fact` write was dispatched. `check` is the
`retrieve_director_memory` lookup; `dedup` the DirectorDedup engine
result. -/
def directorStore (ai : DirAI) (check : StoreCall RetrieveResp) (dedup : DedupOut) :
    Reply × Bool :=
  if (storeFlags ai check dedup).1 then
    ({ content := { response := some "I already have that recorded in the archives.",
                    mood := some "NEUTRAL", roots := none } }, false)
  else if (storeFlags ai check dedup).2.1 then
    -- `${contradictionWarning} Shall I overwrite the old data?` where an
    -- undefined warning_message interpolates as the string "undefined"
    ({ content := { response := some (((storeFlags ai check dedup).2.2.getD "undefined") ++
                        " Shall I overwrite the old data?"),
                    mood := some "QUESTION", roots := none } }, false)
  else
    ({ content := { response := some (jsOr ai.response "Database Updated."),
                    mood := none, roots := none } }, true)

/-! ## Director SEARCH branch (lines 513-613) -/

/-- Name+description metadata of a file, as filtered client-side. -/
def fileMeta (f : DriveFile) : String :=
  f.name ++ " " ++ (f.description.getD "")

/-- Whether a file survives the client-side negative-constraint filter
(`!excludeKeywords.some(ex => meta.includes(ex.toLowerCase()))`). -/
def keepsFile (ex : List String) (f : DriveFile) : Bool :=
  ! ex.any (fun e => strContains (jsToLower (fileMeta f)) (jsToLower e))

/-- Steps 1 of SEARCH: the identity lookup and ambiguity check, producing
either an early reply (`Sum.inl`: the AMBIGUOUS clarification), the final
keyword list (`Sum.inr`), or an uncaught exception (`Except.error`: the
identity fetch failed, or `resolved_names` was missing when the status was
RESOLVED — both throw outside any `try`). -/
def finalKeywordsStep (ai : DirAI) (identity : StoreCall RetrieveResp) (amb : AmbOut) :
    Except Unit (Sum Reply (List String)) :=
  if (ai.positive_constraints.getD []).length > 0 then
    match identity with
    | .err => .error ()
    | .ok ires =>
      if ires.found ∧ ires.relevant_memories ≠ [] then
        if amb.status = "AMBIGUOUS" then
          .ok (.inl { content := { response := amb.clarification_question,
                                   mood := some "QUESTION", roots := none } })
        else if amb.status = "RESOLVED" then
          match amb.resolved_names with
          | none => .error ()
          | some ns => .ok (.inr (if ns.length > 0 then ns
              else ai.positive_constraints.getD []))
        else .ok (.inr (ai.positive_constraints.getD []))
      else .ok (.inr (ai.positive_constraints.getD []))
  else .ok (.inr (ai.positive_constraints.getD []))

/-- The client-side negative-constraint enforcement (lines 566-576).
Throws (`error`) when `files` is missing while the filter runs. -/
def postFilterStep (ex : List String) (s : SearchResp) : Except Unit SearchResp :=
  if s.found ∧ ex ≠ [] then
    match s.files with
    | none => .error ()
    | some fs =>
      .ok { found := if (fs.filter (keepsFile ex)).isEmpty ∧ fs.length > 0 then false
              else s.found,
            files := some (fs.filter (keepsFile ex)), debug_query := s.debug_query }
  else .ok s

/-- The cooperative fallback reply for a failed multi-constraint search. -/
def coopFallbackReply (fk : List String) : Reply :=
  { directorAction := some "SHOW_DECKS", deckKeywords := some fk, files := some [],
    content := { response := some ("I couldn" ++ apos ++ "t find a single scene with BOTH " ++
                     String.intercalate " and " fk ++
                     ". However, I can likely access their individual footage. Which one should I prioritize?"),
                 mood := some "QUESTION", roots := none } }

/-- The final SEARCH reply from the (post-filter) search response. -/
def searchFinish (ai : DirAI) (fk : List String) (s : SearchResp) : Reply :=
  if ¬ s.found ∧ fk.length > 1 then coopFallbackReply fk
  else
    { directorAction := some "PLAY_MEDIA", files := s.files, debug_query := s.debug_query,
      content := { response := some (if s.found then jsOr ai.response "Archive accessed."
                       else "No matching footage found."),
                   mood := some (if s.found then "CRYPTIC" else "SAD"), roots := none } }

/-- The Director SEARCH branch. `searchC` is the `director_search` call
(thrown errors are uncaught). -/
def directorSearch (ai : DirAI) (identity : StoreCall RetrieveResp) (amb : AmbOut)
    (searchC : StoreCall SearchResp) : Except Unit Reply :=
  match finalKeywordsStep ai identity amb with
  | .error () => .error ()
  | .ok (.inl r) => .ok r
  | .ok (.inr fk) =>
    match searchC with
    | .err => .error ()
    | .ok s0 =>
      match postFilterStep (ai.negative_constraints.getD []) s0 with
      | .error () => .error ()
      | .ok s1 => .ok (searchFinish ai fk s1)

/-! ## Director-mode dispatcher (lines 157-617) -/

/-- The outcomes of all external calls a Director-mode turn may make. -/
structure DirOracle where
  /-- The DirectorAI parsed value (use `fallbackDirAI` for exhaustion). -/
  ai : DirAI
  /-- CHAT primary `retrieve_director_memory`. -/
  ctx : StoreCall RetrieveResp
  /-- CHAT drill-down `retrieve_director_memory`. -/
  drill : StoreCall RetrieveResp
  /-- CHAT DirectorFilter `matches` (`none` when absent). -/
  filterMatches : Option (List String)
  /-- CHAT DirectorContextChat `response`. -/
  secondResponse : String
  /-- STORE `retrieve_director_memory` lookup. -/
  check : StoreCall RetrieveResp
  /-- STORE DirectorDedup result. -/
  dedup : DedupOut
  /-- SEARCH identity `retrieve_director_memory`. -/
  identity : StoreCall RetrieveResp
  /-- SEARCH DirectorAmbiguity result. -/
  amb : AmbOut
  /-- SEARCH `director_search` call. -/
  search : StoreCall SearchResp

/-- Director-mode branch of `processMemoryChat` (the `isDirectorMode`
block): dispatch on the classified intent; the trailing fallback returns
`{response: aiRes.response, mood: "CRYPTIC"}`. `Except.error` models the
returned promise rejecting (only SEARCH can throw uncaught). -/
def processDirector (hasUrl : Bool) (o : DirOracle) : Except Unit Reply :=
  if o.ai.intent = "CHAT" then
    .ok (directorChat hasUrl o.ai o.ctx o.drill o.filterMatches o.secondResponse)
  else if o.ai.intent = "STORE" ∧ hasUrl then
    .ok (directorStore o.ai o.check o.dedup).1
  else if o.ai.intent = "SEARCH" ∧ hasUrl then
    directorSearch o.ai o.identity o.amb o.search
  else
    .ok { content := { response := o.ai.response, mood := some "CRYPTIC", roots := none } }

/-! ## Standard-mode data model (lines 619-1156) -/

/-- A chat history message. -/
structure Msg where
  role : String
  content : String
deriving DecidableEq

/-- An extracted memory entry candidate. -/
structure Entry where
  fact : String
  entities : String
  topics : String
  importance : Int
deriving DecidableEq

/-- The Timekeeper parsed result; the engine fallback has no `valid` field,
which is falsy, i.e. `valid := false` with no rewrite. -/
structure TkOut where
  valid : Bool
  rewritten_fact : Option String
deriving DecidableEq

/-- A `retrieve` response of the global store (`relevant_memories` are
strings here). -/
structure StdRetrieve where
  found : Bool
  relevant_memories : List String
deriving DecidableEq

/-- The DedupRefine parsed result (`status = ""` models an `undefined`
status, e.g. on the engine fallback). -/
structure RefineOut where
  status : String
  better_fact : Option String
  better_entities : Option String
deriving DecidableEq

/-- The validated `search_keywords` value: an array, or a comma-separated
string (normalized by splitting). -/
inductive KwVal where
  | arr (l : List String)
  | str (s : String)
deriving DecidableEq

/-- A validator-passing Hybrid Analysis parsed value. -/
structure AnalysisRaw where
  search_keywords : KwVal
  entries : Option (List Entry)
deriving DecidableEq

/-- The Generation parsed value after the (possible) redundancy-guard
regeneration: the regeneration validator only checks `response`, so `mood`
and `roots` may be absent. -/
structure GenParsed where
  response : String
  mood : Option String
  roots : Option (List GraphRoot)
deriving DecidableEq

/-- The initial Generation parsed value: its validator checks both
`response` and `mood` (and the engine fallback carries both), so `mood` is
present. -/
structure GenOut where
  response : String
  mood : String
  roots : Option (List GraphRoot)
deriving DecidableEq

/-- `analysis.search_keywords` after the string-variant normalization
(`split(',').map(s => s.trim())`). -/
def normalizeKw : KwVal → List String
  | .arr l => l
  | .str s => (jsSplit s (Char.ofNat 0x2c)).map (fun x => jsTrim x)

/-- The Timekeeper/Interceptor loop (lines 701-774) over the extracted
entries. Produces either the surviving (possibly fact-rewritten) entries or
the interception reply content, plus the original indices of the entries
that were actually sent to the Timekeeper. -/
def tkLoop (tk : Nat → TkOut) (ir : String) : List Entry → Nat →
    (Sum (List Entry) Content) × List Nat
  | [], _ => (.inl [], [])
  | e :: rest, i =>
    if e.importance < 4 then
      match tkLoop tk ir rest (i + 1) with
      | (.inl vs, calls) => (.inl (e :: vs), calls)
      | (.inr c, calls) => (.inr c, calls)
    else
      if (tk i).valid then
        match tkLoop tk ir rest (i + 1) with
        | (.inl vs, calls) =>
          (.inl ({ e with fact := jsOr (tk i).rewritten_fact e.fact } :: vs), i :: calls)
        | (.inr c, calls) => (.inr c, i :: calls)
      else
        (.inr { response := some ir, mood := some "CURIOUS", roots := some [] }, [i])

/-- `w.charAt(0).toUpperCase() + w.slice(1)` joined over words. -/
def jsTitleCase (s : String) : String :=
  String.intercalate " " ((jsSplit (jsToLower s) (Char.ofNat 0x20)).map (fun w =>
    match w.data with
    | [] => ""
    | c :: cs => String.mk (c.toUpper :: cs)))

def stdStopWords : List String :=
  ["no", "yes", "nope", "yeah", "dont", "know", "what", "when", "where", "who", "why", "i"]

def anchorStopWords : List String :=
  ["Who", "What", "Where", "When", "Why", "How", "I", "No", "Yes", "I" ++ apos ++ "m"]

/-- The global-retrieval keyword set (lines 780-832): raw-input injection,
sticky words from the last assistant turn, the deep-anchor scan over the
last 5 user turns, dedup/length filtering, and the raw-token fallback. -/
def stdSearchKeys (userText : String) (history : List Msg) (isQuestionMode : Bool)
    (kw : List String) : List String :=
  let keys1 :=
    if userText.length < 50 then
      let cleanText := jsTrim (String.mk ((jsToLower userText).data.filter
        (fun c => c.isLower ∨ c = Char.ofNat 0x20)))
      if ¬ stdStopWords.contains cleanText ∧ cleanText.length > 0 then
        jsTitleCase userText :: kw
      else kw
    else kw
  let keys2 :=
    if history ≠ [] then
      let k :=
        match (history.filter (fun h => h.role = "assistant")).getLast? with
        | some lastAi =>
          keys1 ++ ((jsSplit lastAi.content (Char.ofNat 0x20)).filter
            (fun w => w.length > 5 ∧ w.data.all Char.isAlpha)).take 2
        | none => keys1
      if isQuestionMode ∨ userText.length < 30 then
        let userMsgs := history.filter (fun h => h.role = "user")
        let cands := ((userMsgs.drop (userMsgs.length - 5)).reverse).map
          (fun m => (capAlphaRuns m.content.data).filter
            (fun w => ¬ anchorStopWords.contains w))
        match cands.find? (fun l => ¬ l.isEmpty) with
        | some l => k ++ l
        | none => k
      else k
    else keys1
  let keys3 := (dedupKeep keys2).filter (fun w => w ≠ "" ∧ w.length > 2)
  if keys3.isEmpty then
    (jsSplit userText (Char.ofNat 0x20)).filter (fun w => w.length > 3 ∧
      ¬ ["what", "when", "where", "dont", "know"].contains w)
  else keys3

/-- The informative words of the candidate question used by the
redundancy guard (lines 960-963). -/
def respKeywords (resp : String) : List String :=
  ((jsSplit resp (Char.ofNat 0x20)).filter (fun w => w.length > 3 ∧ w.data.all Char.isAlpha)).filter
    (fun w => ¬ ["what", "when", "where", "who", "why", "does", "this", "that",
      "have"].contains (jsToLower w))

/-- The redundancy guard (lines 954-1034): in question mode with a store
URL and a truthy candidate response, re-query the store with the candidate's
keywords; when results exist and the sanity check deems the candidate
redundant, the corrected generation replaces the original. All errors are
caught and leave the original in place. -/
def redundancyStep (isQuestionMode hasUrl : Bool) (p0 : GenParsed)
    (reflex : StoreCall StdRetrieve) (isRedundant : Bool) (corr : GenParsed) : GenParsed :=
  if isQuestionMode ∧ hasUrl ∧ p0.response ≠ "" then
    if (respKeywords p0.response) ≠ [] then
      match reflex with
      | .err => p0
      | .ok r =>
        if r.found ∧ r.relevant_memories ≠ [] then
          if isRedundant then corr else p0
        else p0
    else p0
  else p0

/-- `sanitizeMood` (lines 1038-1041): falsy becomes `"NEUTRAL"`, otherwise
uppercase then trim. -/
def sanitizeMood : Option String → String
  | none => "NEUTRAL"
  | some s => if s = "" then "NEUTRAL" else jsTrim (jsToUpper s)

def cleanBranch (b : GraphBranch) : GraphBranch :=
  { b with mood := some (sanitizeMood b.mood) }

/-- The per-root sanitization: root and branch moods are sanitized; leaf
moods are left untouched. -/
def cleanRoot (r : GraphRoot) : GraphRoot :=
  { r with mood := some (sanitizeMood r.mood),
           branches := r.branches.map (fun bs => bs.map cleanBranch) }

/-- The roots handed to `window.updateGraphData` (when defined), i.e. the
sanitized graph payload; `none` when no roots are present or no renderer is
installed. -/
def graphPayloadOf (p : GenParsed) (upd : Bool) : Option (List GraphRoot) :=
  match p.roots, upd with
  | some rs, true => some (rs.map cleanRoot)
  | _, _ => none

/-- The value assigned to `window.currentMood` this turn (`none` = left
unchanged because the parsed mood was falsy or absent). -/
def currentMoodOf (p : GenParsed) : Option String :=
  match p.mood with
  | some m => if m ≠ "" then some (sanitizeMood (some m)) else none
  | none => none

/-- The dedup-refinement applied to an entry before persistence. -/
def refineEntry (c : RefineOut) (e : Entry) : Entry :=
  { e with
    fact := match c.better_fact with
      | some bf => if bf.length > 5 then bf else e.fact
      | none => e.fact,
    entities := match c.better_entities with
      | some be => if be.length > 2 then be else e.entities
      | none => e.entities }

/-- The detached persistence loop (lines 1073-1154): entries actually
dispatched as `store_atomic` writes, in order. The dedup-refinement call
runs only when the accumulated retrieved context is longer than 50
characters; `DUPLICATE` verdicts skip the write. -/
def storeLoop (lastRet : Option String) (refine : Nat → RefineOut) :
    List Entry → Nat → List Entry
  | [], _ => []
  | e :: rest, i =>
    if e.fact = "" ∨ e.fact = "null" then storeLoop lastRet refine rest (i + 1)
    else
      let hasCtx : Bool := match lastRet with
        | some s => decide (s.length > 50)
        | none => false
      if hasCtx then
        let c := refine i
        if c.status = "DUPLICATE" then storeLoop lastRet refine rest (i + 1)
        else refineEntry c e :: storeLoop lastRet refine rest (i + 1)
      else e :: storeLoop lastRet refine rest (i + 1)

/-- The outcomes of all external calls a Standard-mode turn may make, plus
the relevant pre-existing process-wide state. -/
structure StdOracle where
  /-- Hybrid Analysis parsed value (`none` = the engine's safe-mode
  fallback, which carries neither `search_keywords` nor `entries`). -/
  analysis : Option AnalysisRaw
  /-- Timekeeper verdict for the entry at each original index. -/
  tk : Nat → TkOut
  /-- Interceptor parsed `response`. -/
  interceptResponse : String
  /-- Global `retrieve` call. -/
  retrieve : StoreCall StdRetrieve
  /-- Generation parsed value. -/
  gen : GenOut
  /-- Reflexive `retrieve` call of the redundancy guard. -/
  reflexive : StoreCall StdRetrieve
  /-- RedundancyCheck `is_redundant` (falsy on the engine fallback). -/
  isRedundant : Bool
  /-- CorrectionGeneration parsed value. -/
  correction : GenParsed
  /-- `window.lastRetrievedMemories` before this turn. -/
  priorLastRetrieved : Option String
  /-- Whether `window.updateGraphData` is installed. -/
  updateGraphDefined : Bool
  /-- DedupRefine verdict for the retained entry at each index. -/
  dedupRefine : Nat → RefineOut

/-- Observable side effects and internal stage outcomes of a Standard-mode
turn. -/
structure StdTrace where
  searchKeys : List String
  tkCalls : List Nat
  intercepted : Bool
  retrieveCalled : Bool
  generationCalled : Bool
  finalParsed : GenParsed
  graphPayload : Option (List GraphRoot)
  currentMoodSet : Option String
  storeAtomic : List Entry

/-- The generation parsed value after the (possible) redundancy-guard
regeneration. -/
def finalGenParsed (isQuestionMode hasUrl : Bool) (o : StdOracle) : GenParsed :=
  redundancyStep isQuestionMode hasUrl
    { response := o.gen.response, mood := some o.gen.mood, roots := o.gen.roots }
    o.reflexive o.isRedundant o.correction

/-- `window.lastRetrievedMemories` after the global-retrieval stage:
updated to the formatted results when the retrieval found some, otherwise
left at its prior value (retrieval errors are caught). -/
def stdLastRetrieved (hasUrl : Bool) (o : StdOracle) : Option String :=
  if hasUrl then
    match o.retrieve with
    | .err => o.priorLastRetrieved
    | .ok r =>
      if r.found then
        some ("=== DATABASE SEARCH RESULTS ===" ++ "\n" ++
          String.intercalate "\n" r.relevant_memories)
      else o.priorLastRetrieved
  else o.priorLastRetrieved

/-- The entries dispatched by the detached persistence stage. -/
def stdStoredEntries (hasUrl : Bool) (lastRet : Option String)
    (refine : Nat → RefineOut) (ef : Option (List Entry)) : List Entry :=
  match ef with
  | some l => if hasUrl ∧ l ≠ [] then storeLoop lastRet refine l 0 else []
  | none => []

/-- Standard-mode stages 3-7, entered only when the Timekeeper did not
intercept: global retrieval, generation, redundancy guard, mood
sanitization, detached persistence, and the final reply
`{choices:[{message:{content: generationResult.cleaned}}]}` — note the
reply carries the *raw* generation content; the sanitizer touches only
`window.currentMood` and the graph payload. -/
def stdAfterTk (userText : String) (hasUrl : Bool) (history : List Msg)
    (isQuestionMode : Bool) (o : StdOracle) (kw : List String)
    (entriesFinal : Option (List Entry)) (tkCalls : List Nat) : Reply × StdTrace :=
  ({ content := { response := some (finalGenParsed isQuestionMode hasUrl o).response,
                  mood := (finalGenParsed isQuestionMode hasUrl o).mood,
                  roots := (finalGenParsed isQuestionMode hasUrl o).roots } },
   { searchKeys := stdSearchKeys userText history isQuestionMode kw,
     tkCalls := tkCalls, intercepted := false,
     retrieveCalled := hasUrl, generationCalled := true,
     finalParsed := finalGenParsed isQuestionMode hasUrl o,
     graphPayload := graphPayloadOf (finalGenParsed isQuestionMode hasUrl o)
       o.updateGraphDefined,
     currentMoodSet := currentMoodOf (finalGenParsed isQuestionMode hasUrl o),
     storeAtomic := stdStoredEntries hasUrl (stdLastRetrieved hasUrl o)
       o.dedupRefine entriesFinal })

/-- The extracted entries as read from the analysis result
(`analysis.entries`, `undefined` on the engine fallback). -/
def stdEntriesOpt (o : StdOracle) : Option (List Entry) :=
  o.analysis.bind (fun a => a.entries)

/-- `analysis.search_keywords || []` after normalization. -/
def stdAnalysisKw (o : StdOracle) : List String :=
  match o.analysis with
  | some a => normalizeKw a.search_keywords
  | none => []

/-- The Standard-mode pipeline (lines 619-1156) with its trace. -/
def processStdFull (userText : String) (hasUrl : Bool) (history : List Msg)
    (isQuestionMode : Bool) (o : StdOracle) : Reply × StdTrace :=
  match stdEntriesOpt o with
  | some (e :: rest) =>
    (match tkLoop o.tk o.interceptResponse (e :: rest) 0 with
     | (.inr c, calls) =>
       ({ content := c },
        { searchKeys := [], tkCalls := calls, intercepted := true, retrieveCalled := false,
          generationCalled := false,
          finalParsed := { response := "", mood := none, roots := none },
          graphPayload := none, currentMoodSet := none, storeAtomic := [] })
     | (.inl vs, calls) =>
       stdAfterTk userText hasUrl history isQuestionMode o (stdAnalysisKw o) (some vs) calls)
  | other => stdAfterTk userText hasUrl history isQuestionMode o (stdAnalysisKw o) other []

/-- The pipeline entry point `processMemoryChat`: dispatch on
`isDirectorMode`. `Except.error` models the returned promise rejecting. -/
def processMemoryChat (userText : String) (hasUrl : Bool) (history : List Msg)
    (isQuestionMode isDirectorMode : Bool) (dirO : DirOracle) (stdO : StdOracle) :
    Except Unit Reply :=
  if isDirectorMode then processDirector hasUrl dirO
  else .ok (processStdFull userText hasUrl history isQuestionMode stdO).1

/-! ## Helper lemmas on the Director branches -/

lemma chatSuccessReply_fields (fm : Option (List String)) (sr : String) :
    (chatSuccessReply fm sr).content.response.isSome = true ∧
    (chatSuccessReply fm sr).content.mood.isSome = true := by
  unfold chatSuccessReply
  split
  · exact ⟨rfl, rfl⟩
  · exact ⟨rfl, rfl⟩

lemma directorChatBig_some {pcs : List String} {res : RetrieveResp}
    {drill : StoreCall RetrieveResp} {fm : Option (List String)} {sr : String}
    {p : Reply × List DirMemory} (h : directorChatBig pcs res drill fm sr = some p) :
    p.1.content.response.isSome = true ∧ p.1.content.mood.isSome = true := by
  unfold directorChatBig at h
  split at h
  · split at h
    · obtain rfl := Option.some.inj h
      exact chatSuccessReply_fields fm sr
    · split at h
      · exact absurd h (by simp)
      · obtain rfl := Option.some.inj h
        exact chatSuccessReply_fields fm sr
  · obtain rfl := Option.some.inj h
    exact ⟨rfl, rfl⟩

lemma directorChat_fields (hasUrl : Bool) (ai : DirAI) (ctxC : StoreCall RetrieveResp)
    (drill : StoreCall RetrieveResp) (fm : Option (List String)) (sr : String) :
    (directorChat hasUrl ai ctxC drill fm sr).content.response.isSome = true ∧
    (directorChat hasUrl ai ctxC drill fm sr).content.mood.isSome = true := by
  unfold directorChat
  split
  · split
    · split
      · exact ⟨rfl, rfl⟩
      · split
        · exact directorChatBig_some (by assumption)
        · exact ⟨rfl, rfl⟩
    · exact ⟨rfl, rfl⟩
  · exact ⟨rfl, rfl⟩

lemma directorStore_response (ai : DirAI) (check : StoreCall RetrieveResp)
    (dedup : DedupOut) :
    (directorStore ai check dedup).1.content.response.isSome = true := by
  unfold directorStore
  split
  · exact rfl
  · split
    · exact rfl
    · exact rfl

lemma finalKeywordsStep_inl {ai : DirAI} {identity : StoreCall RetrieveResp}
    {amb : AmbOut} {r : Reply} (h : finalKeywordsStep ai identity amb = .ok (.inl r)) :
    amb.status = "AMBIGUOUS" ∧
    r = { content := { response := amb.clarification_question,
                       mood := some "QUESTION", roots := none } } := by
  unfold finalKeywordsStep at h
  split at h
  · split at h
    · exact absurd h (by simp)
    · split at h
      · split at h
        · refine ⟨by assumption, ?_⟩
          have := Sum.inl.inj (Except.ok.inj h)
          exact this.symm
        · split at h
          · split at h
            · exact absurd h (by simp)
            · exact absurd h (by simp)
          · exact absurd h (by simp)
      · exact absurd h (by simp)
  · exact absurd h (by simp)

lemma directorSearch_ok_shape {ai : DirAI} {identity : StoreCall RetrieveResp}
    {amb : AmbOut} {searchC : StoreCall SearchResp} {r : Reply}
    (h : directorSearch ai identity amb searchC = .ok r) :
    (finalKeywordsStep ai identity amb = .ok (.inl r)) ∨
    (∃ fk s0 s1, finalKeywordsStep ai identity amb = .ok (.inr fk) ∧
      searchC = .ok s0 ∧
      postFilterStep (ai.negative_constraints.getD []) s0 = .ok s1 ∧
      r = searchFinish ai fk s1) := by
  unfold directorSearch at h
  split at h
  · exact absurd h (by simp)
  · rename_i r0 heq
    left
    obtain rfl := Except.ok.inj h
    exact heq
  · rename_i fk heq
    right
    split at h
    · exact absurd h (by simp)
    · rename_i s0
      split at h
      · exact absurd h (by simp)
      · rename_i s1 hs1
        exact ⟨fk, s0, s1, heq, rfl, hs1, (Except.ok.inj h).symm⟩

lemma searchFinish_fields (ai : DirAI) (fk : List String) (s : SearchResp) :
    (searchFinish ai fk s).content.response.isSome = true ∧
    (searchFinish ai fk s).content.mood.isSome = true := by
  unfold searchFinish
  split
  · exact ⟨rfl, rfl⟩
  · exact ⟨rfl, rfl⟩

lemma searchFinish_files (ai : DirAI) (fk : List String) (s : SearchResp) :
    (searchFinish ai fk s).files = some [] ∨ (searchFinish ai fk s).files = s.files := by
  unfold searchFinish
  split
  · exact Or.inl rfl
  · exact Or.inr rfl

lemma searchFinish_notFound {ai : DirAI} {fk : List String} {s : SearchResp}
    (h : s.found = false) :
    ((searchFinish ai fk s).content.mood = some "QUESTION" ∧
      (searchFinish ai fk s).directorAction = some "SHOW_DECKS") ∨
    ((searchFinish ai fk s).content.response = some "No matching footage found." ∧
      (searchFinish ai fk s).content.mood = some "SAD") := by
  unfold searchFinish
  split
  · exact Or.inl ⟨rfl, rfl⟩
  · right
    rw [h]
    exact ⟨rfl, rfl⟩

lemma postFilter_files_keep {ex : List String} {s s1 : SearchResp}
    (hex : ex ≠ []) (hcons : s.found = false → s.files.getD [] = [])
    (h : postFilterStep ex s = .ok s1) :
    ∀ f ∈ s1.files.getD [], keepsFile ex f = true := by
  unfold postFilterStep at h
  split at h
  · split at h
    · exact absurd h (by simp)
    · rename_i fs hfs
      obtain rfl := (Except.ok.inj h).symm
      intro f hf
      simp only [Option.getD_some] at hf
      exact (List.mem_filter.mp hf).2
  · rename_i hcond
    intro f hf
    rw [(Except.ok.inj h).symm] at hf
    have hfound : s.found = false := by
      by_contra hff
      exact hcond ⟨by simpa using hff, hex⟩
    rw [hcons hfound] at hf
    exact absurd hf (List.not_mem_nil f)

lemma postFilter_empties {ex : List String} {s : SearchResp} {fs : List DriveFile}
    (hfs : s.files = some fs) (hfound : s.found = true) (hne : fs ≠ [])
    (hempty : fs.filter (keepsFile ex) = []) (hex : ex ≠ []) :
    postFilterStep ex s = .ok { found := false, files := some [],
                                debug_query := s.debug_query } := by
  unfold postFilterStep
  rw [if_pos ⟨hfound, hex⟩, hfs]
  simp only [hempty]
  have hlen : 0 < fs.length := List.length_pos.mpr hne
  simp [hlen]

/-! ## Helper lemmas on the Standard-mode pipeline -/

lemma redundancyStep_cases (a b : Bool) (p0 : GenParsed) (rf : StoreCall StdRetrieve)
    (ir : Bool) (c : GenParsed) :
    redundancyStep a b p0 rf ir c = p0 ∨ redundancyStep a b p0 rf ir c = c := by
  unfold redundancyStep
  split
  · split
    · split
      · exact Or.inl rfl
      · split
        · split
          · exact Or.inr rfl
          · exact Or.inl rfl
        · exact Or.inl rfl
    · exact Or.inl rfl
  · exact Or.inl rfl

lemma finalGenParsed_mood (q hasUrl : Bool) (o : StdOracle)
    (hCorr : o.correction.mood.isSome = true) :
    (finalGenParsed q hasUrl o).mood.isSome = true := by
  unfold finalGenParsed
  rcases redundancyStep_cases q hasUrl
      { response := o.gen.response, mood := some o.gen.mood, roots := o.gen.roots }
      o.reflexive o.isRedundant o.correction with h | h
  · rw [h]
    rfl
  · rw [h]
    exact hCorr

lemma tkLoop_inr_content :
    ∀ (l : List Entry) (tk : Nat → TkOut) (ir : String) (base : Nat) (c : Content)
      (calls : List Nat),
      tkLoop tk ir l base = (.inr c, calls) →
      c = { response := some ir, mood := some "CURIOUS", roots := some [] } := by
  intro l
  induction l with
  | nil =>
    intro tk ir base c calls h
    simp [tkLoop] at h
  | cons e rest ih =>
    intro tk ir base c calls h
    unfold tkLoop at h
    split at h
    · split at h
      · simp at h
      · rename_i c' calls' heq
        simp only [Prod.mk.injEq] at h
        obtain rfl := Sum.inr.inj h.1
        exact ih tk ir (base + 1) c' calls' heq
    · split at h
      · split at h
        · simp at h
        · rename_i c' calls' heq
          simp only [Prod.mk.injEq] at h
          obtain rfl := Sum.inr.inj h.1
          exact ih tk ir (base + 1) c' calls' heq
      · simp only [Prod.mk.injEq] at h
        exact (Sum.inr.inj h.1).symm

lemma tkLoop_intercepts :
    ∀ (l : List Entry) (tk : Nat → TkOut) (ir : String) (base i : Nat) (e : Entry),
      l.get? i = some e → ¬ e.importance < 4 → (tk (base + i)).valid = false →
      (∀ j ej, j < i → l.get? j = some ej →
        ej.importance < 4 ∨ (tk (base + j)).valid = true) →
      (tkLoop tk ir l base).1 =
        .inr { response := some ir, mood := some "CURIOUS", roots := some [] } := by
  intro l
  induction l with
  | nil =>
    intro tk ir base i e hget _ _ _
    simp [List.get?] at hget
  | cons e0 rest ih =>
    intro tk ir base i e hget himp hinv hprev
    cases i with
    | zero =>
      rw [List.get?_cons_zero] at hget
      obtain rfl := Option.some.inj hget
      unfold tkLoop
      rw [if_neg himp, if_neg (by simpa using hinv)]
    | succ i' =>
      have hrec : (tkLoop tk ir rest (base + 1)).1 =
          .inr { response := some ir, mood := some "CURIOUS", roots := some [] } := by
        refine ih tk ir (base + 1) i' e (by simpa using hget) himp ?_ ?_
        · have : base + 1 + i' = base + (i' + 1) := by omega
          rw [this]
          exact hinv
        · intro j ej hj hgj
          have h := hprev (j + 1) ej (by omega) (by simpa using hgj)
          have heq : base + (j + 1) = base + 1 + j := by omega
          rw [heq] at h
          exact h
      have h0 := hprev 0 e0 (by omega) (by rw [List.get?_cons_zero])
      unfold tkLoop
      by_cases hl : e0.importance < 4
      · rw [if_pos hl]
        rcases htk : tkLoop tk ir rest (base + 1) with ⟨res, calls⟩
        rw [htk] at hrec
        simp only at hrec
        subst hrec
        simp
      · rcases h0 with hlow | hval
        · exact absurd hlow hl
        · rw [if_neg hl, if_pos (by simpa using hval)]
          rcases htk : tkLoop tk ir rest (base + 1) with ⟨res, calls⟩
          rw [htk] at hrec
          simp only at hrec
          subst hrec
          simp

lemma tkLoop_calls_important :
    ∀ (l : List Entry) (tk : Nat → TkOut) (ir : String) (base : Nat) (j : Nat),
      j ∈ (tkLoop tk ir l base).2 →
      ∃ i e, j = base + i ∧ l.get? i = some e ∧ ¬ e.importance < 4 := by
  intro l
  induction l with
  | nil =>
    intro tk ir base j hj
    simp [tkLoop] at hj
  | cons e0 rest ih =>
    intro tk ir base j hj
    unfold tkLoop at hj
    split at hj
    · rename_i hl
      split at hj
      · rename_i vs calls heq
        simp only at hj
        have hj' : j ∈ (tkLoop tk ir rest (base + 1)).2 := by
          rw [heq]
          exact hj
        obtain ⟨i, e, rfl, hg, him⟩ := ih tk ir (base + 1) j hj'
        exact ⟨i + 1, e, by omega, by simpa using hg, him⟩
      · rename_i c calls heq
        simp only at hj
        have hj' : j ∈ (tkLoop tk ir rest (base + 1)).2 := by
          rw [heq]
          exact hj
        obtain ⟨i, e, rfl, hg, him⟩ := ih tk ir (base + 1) j hj'
        exact ⟨i + 1, e, by omega, by simpa using hg, him⟩
    · rename_i hl
      split at hj
      · split at hj
        · rename_i vs calls heq
          simp only at hj
          rcases List.mem_cons.mp hj with rfl | hj'
          · exact ⟨0, e0, by omega, by rw [List.get?_cons_zero], hl⟩
          · have hj'' : j ∈ (tkLoop tk ir rest (base + 1)).2 := by
              rw [heq]
              exact hj'
            obtain ⟨i, e, rfl, hg, him⟩ := ih tk ir (base + 1) j hj''
            exact ⟨i + 1, e, by omega, by simpa using hg, him⟩
        · rename_i c calls heq
          simp only at hj
          rcases List.mem_cons.mp hj with rfl | hj'
          · exact ⟨0, e0, by omega, by rw [List.get?_cons_zero], hl⟩
          · have hj'' : j ∈ (tkLoop tk ir rest (base + 1)).2 := by
              rw [heq]
              exact hj'
            obtain ⟨i, e, rfl, hg, him⟩ := ih tk ir (base + 1) j hj''
            exact ⟨i + 1, e, by omega, by simpa using hg, him⟩
      · simp only at hj
        rcases List.mem_singleton.mp hj with rfl
        exact ⟨0, e0, by omega, by rw [List.get?_cons_zero], hl⟩

lemma stdAfterTk_fields (u : String) (hasUrl : Bool) (hist : List Msg) (q : Bool)
    (o : StdOracle) (kw : List String) (ef : Option (List Entry)) (calls : List Nat)
    (hCorr : o.correction.mood.isSome = true) :
    (stdAfterTk u hasUrl hist q o kw ef calls).1.content.response.isSome = true ∧
    (stdAfterTk u hasUrl hist q o kw ef calls).1.content.mood.isSome = true := by
  exact ⟨rfl, finalGenParsed_mood q hasUrl o hCorr⟩

lemma processStd_fields (u : String) (hasUrl : Bool) (hist : List Msg) (q : Bool)
    (o : StdOracle) (hCorr : o.correction.mood.isSome = true) :
    (processStdFull u hasUrl hist q o).1.content.response.isSome = true ∧
    (processStdFull u hasUrl hist q o).1.content.mood.isSome = true := by
  unfold processStdFull
  split
  · split
    · rename_i c calls heq
      obtain rfl := tkLoop_inr_content _ _ _ _ _ _ heq
      exact ⟨rfl, rfl⟩
    · exact stdAfterTk_fields _ _ _ _ _ _ _ _ hCorr
  · exact stdAfterTk_fields _ _ _ _ _ _ _ _ hCorr

/-! ## Concrete oracles used by counterexamples and witnesses -/

/-- A Standard-mode oracle in which every external call failed (the
engine calls all resolved to their safe-mode fallbacks and the store was
unreachable). -/
def trivialStdOracle : StdOracle :=
  { analysis := none,
    tk := fun _ => { valid := true, rewritten_fact := none },
    interceptResponse := "...",
    retrieve := .err,
    gen := { response := "...", mood := "NEUTRAL", roots := none },
    reflexive := .err,
    isRedundant := false,
    correction := { response := "...", mood := some "NEUTRAL", roots := none },
    priorLastRetrieved := none,
    updateGraphDefined := false,
    dedupRefine := fun _ => { status := "", better_fact := none, better_entities := none } }

/-- An inert Director oracle (unclassified intent, all store calls
failing). -/
def plainDirOracle : DirOracle :=
  { ai := { intent := "", fact_to_store := none, entity_name := none,
            positive_constraints := none, negative_constraints := none,
            response := some "ok" },
    ctx := .err, drill := .err, filterMatches := none, secondResponse := "...",
    check := .err,
    dedup := { is_duplicate := false, is_contradiction := false, warning_message := none },
    identity := .err,
    amb := { status := "", clarification_question := none, resolved_names := none,
             resolved_excludes := none },
    search := .err }

/-- A Director STORE turn that reaches the write path: a fresh fact with
no prior matching records. -/
def storeWriteDirOracle : DirOracle :=
  { ai := { intent := "STORE", fact_to_store := some "Cody is the tall one",
            entity_name := some "Cody", positive_constraints := none,
            negative_constraints := none, response := none },
    ctx := .err, drill := .err, filterMatches := none, secondResponse := "...",
    check := .ok { found := false, relevant_memories := [] },
    dedup := { is_duplicate := false, is_contradiction := false, warning_message := none },
    identity := .err,
    amb := { status := "", clarification_question := none, resolved_names := none,
             resolved_excludes := none },
    search := .err }

/-! ## Claim theorems (Director mode) -/

/-- C10. In Director mode with CHAT intent and a non-empty
positive-constraint list, when the retrieval call to the storage service
throws, `processMemoryChat` falls through the `catch` and returns exactly
the fixed reply used when no constraints exist — "I need more specific
names or traits to search the archive." with mood CRYPTIC — rather than
any error indication or a "no records" reply. -/
theorem c10_chat_retrieval_error_fallthrough (u : String) (hist : List Msg) (q : Bool)
    (o o2 : DirOracle) (stdO : StdOracle) (pcs : List String)
    (hIntent : o.ai.intent = "CHAT")
    (hPcs : o.ai.positive_constraints = some pcs) (hne : pcs ≠ [])
    (hCtx : o.ctx = .err)
    (hIntent2 : o2.ai.intent = "CHAT")
    (hPcs2 : o2.ai.positive_constraints.getD [] = []) :
    processMemoryChat u true hist q true o stdO = .ok needMoreSpecificsReply ∧
    processMemoryChat u true hist q true o2 stdO = .ok needMoreSpecificsReply := by
  constructor
  · simp only [processMemoryChat, processDirector, if_pos rfl, hIntent, if_true,
      directorChat, hPcs, hCtx]
    rw [if_pos ⟨hne, by trivial⟩]
  · rcases hp : o2.ai.positive_constraints with _ | l
    · simp [processMemoryChat, processDirector, hIntent2, directorChat, hp]
    · rw [hp] at hPcs2
      simp only [Option.getD_some] at hPcs2
      subst hPcs2
      simp [processMemoryChat, processDirector, hIntent2, directorChat, hp]

/-- A Director CHAT turn with one positive constraint and an unreachable
store. -/
def chatErrDirOracle : DirOracle :=
  { plainDirOracle with ai :=
      { plainDirOracle.ai with intent := "CHAT", positive_constraints := some ["Brent"] } }

/-- A Director CHAT turn with no positive constraints. -/
def chatBareDirOracle : DirOracle :=
  { plainDirOracle with ai := { plainDirOracle.ai with intent := "CHAT" } }

theorem c10_chat_retrieval_error_witness :
    processMemoryChat "tell me about Brent" true [] false true chatErrDirOracle
        trivialStdOracle = .ok needMoreSpecificsReply ∧
    processMemoryChat "tell me about Brent" true [] false true chatBareDirOracle
        trivialStdOracle = .ok needMoreSpecificsReply :=
  c10_chat_retrieval_error_fallthrough "tell me about Brent" [] false
    chatErrDirOracle chatBareDirOracle trivialStdOracle ["Brent"]
    rfl rfl (by decide) rfl rfl rfl

/-- C4 counterexample. The claim says the serialized message content on
*every* return path carries both a `response` and a `mood` field. On the
Director STORE write path (fresh fact, no duplicate, no contradiction) the
code returns `{response: aiRes.response || "Database Updated."}` with no
mood field at all: at this concrete input the reply's content has
`mood = none`. -/
theorem c4_store_reply_lacks_mood :
    processMemoryChat "Cody is the tall one" true [] false true storeWriteDirOracle
        trivialStdOracle =
      .ok { content := { response := some "Database Updated.", mood := none,
                         roots := none } } ∧
    ({ content := { response := some "Database Updated.", mood := none,
                    roots := none } } : Reply).content.mood = none :=
  ⟨rfl, rfl⟩

/-- C4 (amended). On every *returning* path of `processMemoryChat` the
reply is structurally valid and its content carries a `response` field
(provided the schema-validated inference replies carry the text fields the
branch echoes: the DirectorAI reply a `response`, the ambiguity reply a
`clarification_question`, and the redundancy-correction reply a `mood`);
and it carries a `mood` field on every path *except* the Director STORE
write-confirmation path, which emits only `response`. -/
theorem c4_reply_fields_amended (u : String) (hasUrl : Bool) (hist : List Msg)
    (q dm : Bool) (dirO : DirOracle) (stdO : StdOracle) (r : Reply)
    (hAmb : dirO.amb.status = "AMBIGUOUS" → dirO.amb.clarification_question.isSome = true)
    (hResp : dirO.ai.response.isSome = true)
    (hCorr : stdO.correction.mood.isSome = true)
    (hRun : processMemoryChat u hasUrl hist q dm dirO stdO = .ok r) :
    r.content.response.isSome = true ∧
    (r.content.mood = none → dm = true ∧ dirO.ai.intent = "STORE" ∧ hasUrl = true) := by
  unfold processMemoryChat at hRun
  by_cases hdm : dm = true
  · rw [if_pos hdm] at hRun
    unfold processDirector at hRun
    split at hRun
    · obtain rfl := Except.ok.inj hRun
      obtain ⟨h1, h2⟩ := directorChat_fields hasUrl dirO.ai dirO.ctx dirO.drill
        dirO.filterMatches dirO.secondResponse
      refine ⟨h1, fun hmo => ?_⟩
      rw [hmo] at h2
      exact absurd h2 (by simp)
    · split at hRun
      · rename_i hsto
        obtain rfl := Except.ok.inj hRun
        exact ⟨directorStore_response _ _ _, fun _ => ⟨hdm, hsto.1, hsto.2⟩⟩
      · split at hRun
        · rcases directorSearch_ok_shape hRun with hinl | ⟨fk, s0, s1, hkw, hs0, hs1, rfl⟩
          · obtain ⟨hst, rfl⟩ := finalKeywordsStep_inl hinl
            refine ⟨hAmb hst, fun hmo => ?_⟩
            exact absurd hmo (by simp)
          · obtain ⟨h1, h2⟩ := searchFinish_fields dirO.ai fk s1
            refine ⟨h1, fun hmo => ?_⟩
            rw [hmo] at h2
            exact absurd h2 (by simp)
        · obtain rfl := Except.ok.inj hRun
          exact ⟨hResp, fun hmo => absurd hmo (by simp)⟩
  · rw [if_neg hdm] at hRun
    obtain rfl := Except.ok.inj hRun
    obtain ⟨h1, h2⟩ := processStd_fields u hasUrl hist q stdO hCorr
    refine ⟨h1, fun hmo => ?_⟩
    rw [hmo] at h2
    exact absurd h2 (by simp)

theorem c4_reply_fields_witness :
    ({ content := { response := some "...", mood := some "NEUTRAL", roots := none } }
        : Reply).content.response.isSome = true ∧
    (({ content := { response := some "...", mood := some "NEUTRAL", roots := none } }
        : Reply).content.mood = none →
      false = true ∧ plainDirOracle.ai.intent = "STORE" ∧ false = true) :=
  c4_reply_fields_amended "hi" false [] false false plainDirOracle trivialStdOracle
    { content := { response := some "...", mood := some "NEUTRAL", roots := none } }
    (fun h => absurd h (by decide)) (by decide) (by decide) rfl

lemma keepsFile_spec {ex : List String} {f : DriveFile} (h : keepsFile ex f = true) :
    ∀ e ∈ ex, strContains (jsToLower (fileMeta f)) (jsToLower e) = false := by
  unfold keepsFile at h
  simp only [Bool.not_eq_eq_eq_not, Bool.not_true] at h
  intro e he
  simpa using List.any_eq_false.mp h e he

/-- C6. For Director SEARCH with a non-empty exclude set (and an ambiguity
check that does not intercept the turn), every file in the returned result
set has name+description metadata containing no excluded term
(case-insensitively); and whenever the client-side filter removes every
file from a previously non-empty, found result set, the outcome is
reported as not-found: the reply is either the cooperative fallback
(mood QUESTION, SHOW_DECKS) or the "No matching footage found." / SAD
reply, never the found reply. The consistency hypothesis `hCons` states
the storage contract that a not-found response carries no files. -/
theorem c6_exclude_filtering (u : String) (hist : List Msg) (q : Bool)
    (dirO : DirOracle) (stdO : StdOracle) (r : Reply) (s : SearchResp)
    (hIntent : dirO.ai.intent = "SEARCH")
    (hEx : dirO.ai.negative_constraints.getD [] ≠ [])
    (hNoAmb : dirO.amb.status ≠ "AMBIGUOUS")
    (hSearch : dirO.search = .ok s)
    (hCons : s.found = false → s.files.getD [] = [])
    (hRun : processMemoryChat u true hist q true dirO stdO = .ok r) :
    (∀ f ∈ r.files.getD [], ∀ e ∈ dirO.ai.negative_constraints.getD [],
      strContains (jsToLower (fileMeta f)) (jsToLower e) = false) ∧
    (∀ fs, s.files = some fs → s.found = true → fs ≠ [] →
      fs.filter (keepsFile (dirO.ai.negative_constraints.getD [])) = [] →
      ((r.content.mood = some "QUESTION" ∧ r.directorAction = some "SHOW_DECKS") ∨
       (r.content.response = some "No matching footage found." ∧
        r.content.mood = some "SAD"))) := by
  unfold processMemoryChat at hRun
  rw [if_pos rfl] at hRun
  unfold processDirector at hRun
  rw [hIntent] at hRun
  rw [if_neg (by decide)] at hRun
  rw [if_neg (by decide)] at hRun
  rw [if_pos (by exact ⟨rfl, rfl⟩)] at hRun
  rcases directorSearch_ok_shape hRun with hinl | ⟨fk, s0, s1, hkw, hs0, hs1, rfl⟩
  · obtain ⟨hst, _⟩ := finalKeywordsStep_inl hinl
    exact absurd hst hNoAmb
  · rw [hSearch] at hs0
    obtain rfl := StoreCall.ok.inj hs0
    constructor
    · intro f hf
      rcases searchFinish_files dirO.ai fk s1 with hfe | hfe
      · rw [hfe] at hf
        simp at hf
      · rw [hfe] at hf
        exact keepsFile_spec (postFilter_files_keep hEx hCons hs1 f hf)
    · intro fs hfs hfound hne hempty
      have hpf := postFilter_empties hfs hfound hne hempty hEx
      rw [hpf] at hs1
      obtain rfl := Except.ok.inj hs1
      exact searchFinish_notFound rfl

/-- A Director SEARCH turn with one exclude term, whose search finds one
clean file. -/
def searchDirOracle : DirOracle :=
  { plainDirOracle with
    ai := { plainDirOracle.ai with
              intent := "SEARCH",
              negative_constraints := some ["john"] },
    search := .ok { found := true,
                    files := some [{ name := "Clip", description := some "with Marc" }],
                    debug_query := none } }

theorem c6_exclude_filtering_witness :
    strContains (jsToLower (fileMeta { name := "Clip", description := some "with Marc" }))
      (jsToLower "john") = false :=
  (c6_exclude_filtering "pull up the tape" [] false searchDirOracle trivialStdOracle
      { directorAction := some "PLAY_MEDIA",
        files := some [{ name := "Clip", description := some "with Marc" }],
        debug_query := none,
        content := { response := some "ok", mood := some "CRYPTIC", roots := none } }
      { found := true, files := some [{ name := "Clip", description := some "with Marc" }],
        debug_query := none }
      rfl (by decide) (by decide) rfl (fun h => absurd h (by decide)) rfl).1
    { name := "Clip", description := some "with Marc" } (by decide) "john" (by decide)

/-- C7. In Director SEARCH, the cooperative fallback reply (offering
individual results, with a SHOW_DECKS directive carrying all final
constraints and an emptied `files` list) is returned exactly when the
(post-filter) search response reports not-found *and* the final
positive-constraint list has length greater than 1. A failed search with
at most one positive constraint instead takes the ordinary
"No matching footage found." / SAD reply with the PLAY_MEDIA directive —
no fallback. -/
theorem c7_cooperative_fallback (u : String) (hist : List Msg) (q : Bool)
    (dirO : DirOracle) (stdO : StdOracle) (r : Reply) (s s1 : SearchResp)
    (fk : List String)
    (hIntent : dirO.ai.intent = "SEARCH")
    (hKw : finalKeywordsStep dirO.ai dirO.identity dirO.amb = .ok (.inr fk))
    (hSearch : dirO.search = .ok s)
    (hPost : postFilterStep (dirO.ai.negative_constraints.getD []) s = .ok s1)
    (hRun : processMemoryChat u true hist q true dirO stdO = .ok r) :
    (r = coopFallbackReply fk ↔ (s1.found = false ∧ fk.length > 1)) ∧
    (s1.found = false → ¬ fk.length > 1 →
      r = { directorAction := some "PLAY_MEDIA", files := s1.files,
            debug_query := s1.debug_query,
            content := { response := some "No matching footage found.",
                         mood := some "SAD", roots := none } }) := by
  unfold processMemoryChat at hRun
  rw [if_pos rfl] at hRun
  unfold processDirector at hRun
  rw [hIntent] at hRun
  rw [if_neg (by decide)] at hRun
  rw [if_neg (by decide)] at hRun
  rw [if_pos (by exact ⟨rfl, rfl⟩)] at hRun
  rcases directorSearch_ok_shape hRun with hinl | ⟨fk', s0, s1', hkw, hs0, hs1, rfl⟩
  · rw [hKw] at hinl
    exact absurd hinl (by simp)
  · rw [hKw] at hkw
    obtain rfl := Sum.inr.inj (Except.ok.inj hkw)
    rw [hSearch] at hs0
    obtain rfl := StoreCall.ok.inj hs0
    rw [hPost] at hs1
    obtain rfl := Except.ok.inj hs1
    constructor
    · constructor
      · intro hre
        unfold searchFinish at hre
        split at hre
        · rename_i hc
          exact ⟨by simpa using hc.1, hc.2⟩
        · have := congrArg Reply.directorAction hre
          simp [coopFallbackReply] at this
      · intro hc
        unfold searchFinish
        rw [if_pos ⟨by simp [hc.1], hc.2⟩]
    · intro hf hl
      unfold searchFinish
      rw [if_neg (fun hand => hl hand.2)]
      simp [hf]

/-- A Director SEARCH turn with two positive constraints whose search
finds nothing. -/
def coopSearchDirOracle : DirOracle :=
  { plainDirOracle with
    ai := { plainDirOracle.ai with
              intent := "SEARCH",
              positive_constraints := some ["Marc", "Takahiro"] },
    identity := .ok { found := false, relevant_memories := [] },
    search := .ok { found := false, files := some [], debug_query := none } }

theorem c7_cooperative_fallback_witness :
    (coopFallbackReply ["Marc", "Takahiro"] = coopFallbackReply ["Marc", "Takahiro"] ↔
      ((false : Bool) = false ∧ (["Marc", "Takahiro"] : List String).length > 1)) ∧
    ((false : Bool) = false → ¬ (["Marc", "Takahiro"] : List String).length > 1 →
      coopFallbackReply ["Marc", "Takahiro"] =
        { directorAction := some "PLAY_MEDIA", files := some [], debug_query := none,
          content := { response := some "No matching footage found.",
                       mood := some "SAD", roots := none } }) :=
  c7_cooperative_fallback "show them together" [] false coopSearchDirOracle
    trivialStdOracle (coopFallbackReply ["Marc", "Takahiro"])
    { found := false, files := some [], debug_query := none }
    { found := false, files := some [], debug_query := none }
    ["Marc", "Takahiro"] rfl rfl rfl rfl rfl

/-! ## Claim theorems (Standard mode) -/

/-- C5. In Standard mode, when the extracted entry at index `i` has
importance ≥ 4, the Timekeeper judges it to lack a timeframe, and every
earlier entry either sat below the importance threshold or passed the
gate, the turn short-circuits: `processMemoryChat` returns the
interception reply (the Interceptor's when-question with mood CURIOUS and
an empty graph), retrieval and generation are suppressed, no entry of the
turn is dispatched to the store, and the entries actually sent to the
Timekeeper all had importance ≥ 4 (low-importance entries bypass the gate
entirely). -/
theorem c5_timekeeper_short_circuit (u : String) (hasUrl : Bool) (hist : List Msg)
    (q : Bool) (dirO : DirOracle) (o : StdOracle) (l : List Entry) (i : Nat) (e : Entry)
    (hEntries : stdEntriesOpt o = some l)
    (hGet : l.get? i = some e) (hImp : ¬ e.importance < 4)
    (hInvalid : (o.tk i).valid = false)
    (hPrev : ∀ j ej, j < i → l.get? j = some ej →
      ej.importance < 4 ∨ (o.tk j).valid = true) :
    processMemoryChat u hasUrl hist q false dirO o =
      .ok { content := { response := some o.interceptResponse, mood := some "CURIOUS",
                         roots := some [] } } ∧
    (processStdFull u hasUrl hist q o).2.storeAtomic = [] ∧
    (processStdFull u hasUrl hist q o).2.retrieveCalled = false ∧
    (processStdFull u hasUrl hist q o).2.generationCalled = false ∧
    (∀ j ∈ (processStdFull u hasUrl hist q o).2.tkCalls,
      ∃ ej, l.get? j = some ej ∧ ¬ ej.importance < 4) := by
  rcases l with _ | ⟨e0, rest⟩
  · cases i <;> exact Option.noConfusion hGet
  · have hloop := tkLoop_intercepts (e0 :: rest) o.tk o.interceptResponse 0 i e hGet hImp
      (by simpa using hInvalid) (by simpa using hPrev)
    rcases htk : tkLoop o.tk o.interceptResponse (e0 :: rest) 0 with ⟨res, calls⟩
    rw [htk] at hloop
    simp only at hloop
    subst hloop
    have hps : processStdFull u hasUrl hist q o =
        ({ content := { response := some o.interceptResponse, mood := some "CURIOUS",
                        roots := some [] } },
         { searchKeys := [], tkCalls := calls, intercepted := true, retrieveCalled := false,
           generationCalled := false,
           finalParsed := { response := "", mood := none, roots := none },
           graphPayload := none, currentMoodSet := none, storeAtomic := [] }) := by
      simp only [processStdFull, hEntries, htk]
    refine ⟨?_, ?_, ?_, ?_, ?_⟩
    · unfold processMemoryChat
      rw [if_neg (by simp)]
      rw [hps]
    · rw [hps]
    · rw [hps]
    · rw [hps]
    · intro j hj
      rw [hps] at hj
      simp only at hj
      have hj' : j ∈ (tkLoop o.tk o.interceptResponse (e0 :: rest) 0).2 := by
        rw [htk]
        exact hj
      obtain ⟨i', e', hji, hg, him⟩ := tkLoop_calls_important (e0 :: rest) o.tk
        o.interceptResponse 0 j hj'
      refine ⟨e', ?_, him⟩
      rw [hji]
      simpa using hg

/-- A Standard-mode oracle with one significant undated entry and a
Timekeeper that rejects it. -/
def interceptStdOracle : StdOracle :=
  { trivialStdOracle with
    analysis := some { search_keywords := .arr ["Japan"],
                       entries := some [{ fact := "Arvin went to Japan",
                                          entities := "Arvin, Japan",
                                          topics := "History", importance := 7 }] },
    tk := fun _ => { valid := false, rewritten_fact := none },
    interceptResponse := "When did this happen?" }

theorem c5_timekeeper_short_circuit_witness :
    processMemoryChat "I went to Japan" false [] false false plainDirOracle
        interceptStdOracle =
      .ok { content := { response := some "When did this happen?", mood := some "CURIOUS",
                         roots := some [] } } ∧
    (processStdFull "I went to Japan" false [] false interceptStdOracle).2.storeAtomic = [] :=
  ⟨(c5_timekeeper_short_circuit "I went to Japan" false [] false plainDirOracle
      interceptStdOracle
      [{ fact := "Arvin went to Japan", entities := "Arvin, Japan",
         topics := "History", importance := 7 }] 0
      { fact := "Arvin went to Japan", entities := "Arvin, Japan",
        topics := "History", importance := 7 }
      rfl rfl (by decide) rfl (fun j ej hj _ => absurd hj (by omega))).1,
   (c5_timekeeper_short_circuit "I went to Japan" false [] false plainDirOracle
      interceptStdOracle
      [{ fact := "Arvin went to Japan", entities := "Arvin, Japan",
         topics := "History", importance := 7 }] 0
      { fact := "Arvin went to Japan", entities := "Arvin, Japan",
        topics := "History", importance := 7 }
      rfl rfl (by decide) rfl (fun j ej hj _ => absurd hj (by omega))).2.1⟩

lemma processStd_shape (u : String) (hasUrl : Bool) (hist : List Msg) (q : Bool)
    (o : StdOracle) :
    ((processStdFull u hasUrl hist q o).2.intercepted = true ∧
     (processStdFull u hasUrl hist q o).2.graphPayload = none ∧
     (processStdFull u hasUrl hist q o).2.currentMoodSet = none) ∨
    ((processStdFull u hasUrl hist q o).2.intercepted = false ∧
     (processStdFull u hasUrl hist q o).2.graphPayload =
       graphPayloadOf ((processStdFull u hasUrl hist q o).2.finalParsed)
         o.updateGraphDefined ∧
     (processStdFull u hasUrl hist q o).2.currentMoodSet =
       currentMoodOf ((processStdFull u hasUrl hist q o).2.finalParsed) ∧
     (processStdFull u hasUrl hist q o).1.content.mood =
       ((processStdFull u hasUrl hist q o).2.finalParsed).mood) := by
  unfold processStdFull
  split
  · split
    · exact Or.inl ⟨rfl, rfl, rfl⟩
    · exact Or.inr ⟨rfl, rfl, rfl, rfl⟩
  · exact Or.inr ⟨rfl, rfl, rfl, rfl⟩

lemma graphPayloadOf_moods {p : GenParsed} {upd : Bool} {rs : List GraphRoot}
    (h : graphPayloadOf p upd = some rs) :
    ∀ r ∈ rs, (∃ m, r.mood = some (sanitizeMood m)) ∧
      (∀ bs, r.branches = some bs → ∀ b ∈ bs, ∃ m, b.mood = some (sanitizeMood m)) := by
  unfold graphPayloadOf at h
  split at h
  · rename_i rs0 _ _
    obtain rfl := Option.some.inj h
    intro r hr
    obtain ⟨r0, hr0, rfl⟩ := List.mem_map.mp hr
    refine ⟨⟨r0.mood, rfl⟩, ?_⟩
    intro bs hbs
    unfold cleanRoot at hbs
    simp only at hbs
    obtain ⟨bs0, hbs0, rfl⟩ := Option.map_eq_some'.mp hbs
    intro b hb
    obtain ⟨b0, hb0, rfl⟩ := List.mem_map.mp hb
    exact ⟨b0.mood, rfl⟩
  · exact absurd h (by simp)

lemma currentMoodOf_spec {p : GenParsed} {m : String} (h : currentMoodOf p = some m) :
    ∃ m0, m0 ≠ "" ∧ m = sanitizeMood (some m0) := by
  unfold currentMoodOf at h
  split at h
  · rename_i m0 heq
    split at h
    · exact ⟨m0, by assumption, (Option.some.inj h).symm⟩
    · exact absurd h (by simp)
  · exact absurd h (by simp)

/-- A Standard-mode turn whose generation produced the lowercase,
untrimmed mood `"curious "`. -/
def lowercaseMoodStdOracle : StdOracle :=
  { trivialStdOracle with
    gen := { response := "Hi", mood := "curious ", roots := none } }

/-- C8 counterexample. The claim says every mood value of the turn's
output — *including the mood of the returned Reply* — is an uppercase,
trimmed token. But the Standard-mode reply is the raw
`generationResult.cleaned`: the mood sanitizer only rewrites
`window.currentMood` and the graph payload. At this concrete input the
returned reply's mood is the raw lowercase, untrimmed `"curious "`
(which differs from its normalized form `"CURIOUS"`), even though
`window.currentMood` received the sanitized value. -/
theorem c8_reply_mood_not_normalized :
    processMemoryChat "hey" false [] false false plainDirOracle lowercaseMoodStdOracle =
      .ok { content := { response := some "Hi", mood := some "curious ", roots := none } } ∧
    jsTrim (jsToUpper "curious ") ≠ "curious " ∧
    (processStdFull "hey" false [] false lowercaseMoodStdOracle).2.currentMoodSet =
      some "CURIOUS" :=
  ⟨rfl, by decide, rfl⟩

/-- C8 (amended). The moods handed to the graph-rendering collaborator
are sanitized: every per-root and per-branch mood of the graph payload is
in the image of `sanitizeMood` (uppercase-then-trimmed, with NEUTRAL as
the default for an absent or empty mood), and the value assigned to the
global `window.currentMood`, whenever one is assigned, is likewise
sanitized. The mood of the returned Reply itself, however, is the raw
generated mood, not normalized (and when the generated mood is falsy the
global mood is left unchanged rather than defaulted). -/
theorem c8_graph_moods_sanitized (u : String) (hasUrl : Bool) (hist : List Msg)
    (q : Bool) (o : StdOracle) :
    (∀ rs, (processStdFull u hasUrl hist q o).2.graphPayload = some rs →
      ∀ r ∈ rs, (∃ m, r.mood = some (sanitizeMood m)) ∧
        (∀ bs, r.branches = some bs → ∀ b ∈ bs, ∃ m, b.mood = some (sanitizeMood m))) ∧
    (∀ m, (processStdFull u hasUrl hist q o).2.currentMoodSet = some m →
      ∃ m0, m0 ≠ "" ∧ m = sanitizeMood (some m0)) ∧
    sanitizeMood none = "NEUTRAL" ∧
    (∀ s : String, s ≠ "" → sanitizeMood (some s) = jsTrim (jsToUpper s)) ∧
    ((processStdFull u hasUrl hist q o).2.intercepted = false →
      (processStdFull u hasUrl hist q o).1.content.mood =
        ((processStdFull u hasUrl hist q o).2.finalParsed).mood) := by
  rcases processStd_shape u hasUrl hist q o with ⟨hint, hp, hc⟩ | ⟨hint, hp, hc, hm⟩
  · refine ⟨?_, ?_, rfl, ?_, ?_⟩
    · intro rs hrs
      rw [hp] at hrs
      exact absurd hrs (by simp)
    · intro m hm'
      rw [hc] at hm'
      exact absurd hm' (by simp)
    · intro s hs
      simp only [sanitizeMood]
      rw [if_neg hs]
    · intro hif
      rw [hint] at hif
      exact absurd hif (by simp)
  · refine ⟨?_, ?_, rfl, ?_, fun _ => hm⟩
    · intro rs hrs
      rw [hp] at hrs
      exact graphPayloadOf_moods hrs
    · intro m hm'
      rw [hc] at hm'
      exact currentMoodOf_spec hm'
    · intro s hs
      simp only [sanitizeMood]
      rw [if_neg hs]

/-- A Standard-mode turn whose generation produced a graph with messy
moods, with a graph renderer installed. -/
def graphStdOracle : StdOracle :=
  { trivialStdOracle with
    gen := { response := "Hi", mood := "ok",
             roots := some [{ label := some "A", mood := some " joy ",
                              branches := some [{ label := some "B", mood := none,
                                                  leaves := none }] }] },
    updateGraphDefined := true }

theorem c8_graph_moods_witness :
    (∃ m, (GraphRoot.mood { label := some "A", mood := some "JOY",
                            branches := some [{ label := some "B",
                                                mood := some "NEUTRAL",
                                                leaves := none }] }) =
      some (sanitizeMood m)) ∧
    (processStdFull "x" false [] false graphStdOracle).2.graphPayload =
      some [{ label := some "A", mood := some "JOY",
              branches := some [{ label := some "B", mood := some "NEUTRAL",
                                  leaves := none }] }] :=
  ⟨((c8_graph_moods_sanitized "x" false [] false graphStdOracle).1
      [{ label := some "A", mood := some "JOY",
         branches := some [{ label := some "B", mood := some "NEUTRAL",
                             leaves := none }] }] rfl
      { label := some "A", mood := some "JOY",
        branches := some [{ label := some "B", mood := some "NEUTRAL",
                            leaves := none }] } (by decide)).1,
   rfl⟩
